import Mathlib

/-!
Verification of the Fornjot Shape Store core (fj-kernel): a shallow
embedding of `src/fj-kernel/src/shape/geometry.rs`,
`src/fj-kernel/src/shape/traits.rs` and the surrounding shape-store data
model, with theorems settling the specified properties.

Modelling conventions:
- Coordinates are exact integers (the logic of the store is independent of
  the scalar type; comparisons against the minimum distance `ε` are done
  on squared distances, which is equivalent for nonnegative `ε`).
- A `Store` is a list of payloads; a `Handle` is the index of the slot it
  addresses.  The Rust `Store` is append-only and never compacts, so slot
  addresses are stable exactly like list indices under appending; handle
  identity (same slot, same store) is index equality.
- Fallible operations are written in state-passing style
  `Shape → result × Shape`, mirroring `&mut self` receivers: the returned
  shape is the state after the call, also when the call fails.
-/

namespace Fornjot

/-- A point in 3D space, `fj_math::Point<3>` with exact scalars. -/
structure Point3 where
  x : Int
  y : Int
  z : Int
deriving DecidableEq, Repr

/-- Squared Euclidean distance between two points. -/
def distSq (p q : Point3) : Int :=
  (p.x - q.x) ^ 2 + (p.y - q.y) ^ 2 + (p.z - q.z) ^ 2

/-- Modelled from the spec: `fj_math::Transform` (not under `src/`), a
rigid-or-affine transform: a linear part (three rows) plus a translation. -/
structure Transform where
  r1 : Point3
  r2 : Point3
  r3 : Point3
  t : Point3
deriving DecidableEq, Repr

def dot3 (r p : Point3) : Int := r.x * p.x + r.y * p.y + r.z * p.z

/-- Apply the transform to a point (linear part plus translation). -/
def Transform.transformPoint (T : Transform) (p : Point3) : Point3 :=
  ⟨dot3 T.r1 p + T.t.x, dot3 T.r2 p + T.t.y, dot3 T.r3 p + T.t.z⟩

/-- Apply the transform to a vector (linear part only, no translation). -/
def Transform.transformVector (T : Transform) (v : Point3) : Point3 :=
  ⟨dot3 T.r1 v, dot3 T.r2 v, dot3 T.r3 v⟩

/-- Modelled from the spec: a curve, "parametric specification (e.g. line
through origin with direction, circle with center/axis/radius)"; the
definition file (`fj-kernel/src/geometry`) is not under `src/`. -/
inductive Curve where
  | line (origin direction : Point3)
  | circle (center axis : Point3) (radius : Int)
deriving DecidableEq, Repr

/-- Whether a curve is the line variant. -/
def Curve.isLine : Curve → Bool
  | .line _ _ => true
  | .circle _ _ _ => false

/-- Modelled from the spec: the curve's own `transform` capability,
"returning a transformed value of the same variant": points of the
parametrization are mapped as points, directions as vectors. -/
def Curve.transform (T : Transform) : Curve → Curve
  | .line o d => .line (T.transformPoint o) (T.transformVector d)
  | .circle c a r => .circle (T.transformPoint c) (T.transformVector a) r

/-- Modelled from the spec: a surface, "parametric specification sufficient
to evaluate a point at a 2-parameter coordinate", as a curve swept along a
path; the definition file is not under `src/`. -/
inductive Surface where
  | swept (curve : Curve) (path : Point3)
deriving DecidableEq, Repr

/-- Modelled from the spec: the surface's own `transform` capability,
returning a transformed value of the same variant. -/
def Surface.transform (T : Transform) : Surface → Surface
  | .swept c path => .swept (c.transform T) (T.transformVector path)

/-- A triangle, three vertices in 3D. -/
structure Triangle where
  a : Point3
  b : Point3
  c : Point3
deriving DecidableEq, Repr

/-- `fj_math`'s triangle transform: each of the three vertices is mapped
through the transform. -/
def Transform.transformTriangle (T : Transform) (tr : Triangle) : Triangle :=
  ⟨T.transformPoint tr.a, T.transformPoint tr.b, T.transformPoint tr.c⟩

/-- The shape-store `Vertex`: exactly one Point handle.  The field matches
its construction `Vertex { point }` from a `Handle<Point<3>>` in
`src/fj-kernel/src/shape/traits.rs`; the defining file of that crate is not
under `src/` (a separate snapshot, `src/crates/fj-kernel/src/topology/vertex.rs`,
instead stores one inline `Point<3>`). -/
structure Vertex where
  point : Nat
deriving DecidableEq, Repr

/-- Modelled from the spec: an Edge references "exactly one Curve handle;
zero, one, or two bounding Vertex handles". -/
structure Edge where
  curve : Nat
  vertices : List Nat
deriving DecidableEq, Repr

/-- Modelled from the spec: a Cycle is an "ordered list of Edge handles". -/
structure Cycle where
  edges : List Nat
deriving DecidableEq, Repr

/-- The shape-store `Face`: either a Surface handle with Cycle handles, or,
transitionally, a list of explicit triangles (the variant `transform` in
`src/fj-kernel/src/shape/geometry.rs` matches on). -/
inductive Face where
  | face (surface : Nat) (cycles : List Nat)
  | triangles (ts : List Triangle)
deriving DecidableEq, Repr

/-- The Shape aggregate: one append-only store per entity kind plus the
minimum-distance setting `ε` (squared comparisons are used throughout). -/
structure Shape where
  minDistance : Int
  points : List Point3
  curves : List Curve
  surfaces : List Surface
  vertices : List Vertex
  edges : List Edge
  cycles : List Cycle
  faces : List Face
deriving DecidableEq, Repr

/-! ## Geometry facet (`src/fj-kernel/src/shape/geometry.rs`) -/

/-- `Geometry::add_point`: push the payload, return the handle of the new
slot (the index at the end of the append-only store). -/
def Shape.add_point (s : Shape) (p : Point3) : Nat × Shape :=
  (s.points.length, { s with points := s.points ++ [p] })

/-- `Geometry::add_curve`. -/
def Shape.add_curve (s : Shape) (c : Curve) : Nat × Shape :=
  (s.curves.length, { s with curves := s.curves ++ [c] })

/-- `Geometry::add_surface`. -/
def Shape.add_surface (s : Shape) (sf : Surface) : Nat × Shape :=
  (s.surfaces.length, { s with surfaces := s.surfaces ++ [sf] })

/-- The triangle workaround loop of `Geometry::transform`: a face in the
triangles variant has each triangle mapped through the transform; any other
face is left as it is. -/
def Face.transformIfTriangles (T : Transform) : Face → Face
  | .triangles ts => .triangles (ts.map T.transformTriangle)
  | f => f

/-- `Geometry::transform`: every point is mapped through the transform,
every curve and surface through its own transform capability, and every
triangles-variant face has its triangles mapped; the topological stores are
not touched. -/
def Shape.transform (s : Shape) (T : Transform) : Shape :=
  { s with
    points := s.points.map T.transformPoint
    curves := s.curves.map (Curve.transform T)
    surfaces := s.surfaces.map (Surface.transform T)
    faces := s.faces.map (Face.transformIfTriangles T) }

/-- The linear scan inside `Geometry::handle_for`:
`iter().find(|obj| obj == object)` over a store, returning the handle
(index) of the first payload exactly equal to the query. -/
def scanFor {α : Type} [DecidableEq α] (store : List α) (v : α) : Option Nat :=
  match store with
  | [] => none
  | x :: xs => if x = v then some 0 else (scanFor xs v).map (· + 1)

/-! ### The type-keyed map dispatch of `handle_for`

`Geometry::handle_for` builds an `AnyMap`, inserts clones of the point,
curve and surface stores keyed by their type, and looks up the store for
the query's type, unwrapping the result.  The closed family of geometric
kinds (the sealed `GeoObject` trait of `src/fj-kernel/src/shape/traits.rs`,
implemented exactly for `Point<3>`, `Curve` and `Surface`) is modelled as a
three-variant tag. -/

inductive GeoKind where
  | point
  | curve
  | surface
deriving DecidableEq, Repr

/-- A store value held in the type-keyed map. -/
inductive StoreVal where
  | points (l : List Point3)
  | curves (l : List Curve)
  | surfaces (l : List Surface)
deriving DecidableEq, Repr

/-- The type key of a stored value. -/
def StoreVal.kind : StoreVal → GeoKind
  | .points _ => .point
  | .curves _ => .curve
  | .surfaces _ => .surface

/-- `AnyMap::insert`: the new entry replaces any entry of the same type. -/
def anyMapInsert (m : List StoreVal) (v : StoreVal) : List StoreVal :=
  v :: m.filter (fun w => w.kind ≠ v.kind)

/-- `AnyMap::get`: the entry keyed by the given type, if present. -/
def anyMapGet (m : List StoreVal) (k : GeoKind) : Option StoreVal :=
  m.find? (fun w => w.kind = k)

/-- The map built by `Geometry::handle_for`: the point, curve and surface
stores are inserted in this order. -/
def Shape.buildMap (s : Shape) : List StoreVal :=
  anyMapInsert (anyMapInsert (anyMapInsert [] (.points s.points))
    (.curves s.curves)) (.surfaces s.surfaces)

/-- `Geometry::handle_for` at `T = Point<3>`, with the unwrap made explicit:
the outer `none` is the panic of `.unwrap()` on a missing store. -/
def Shape.handle_for_point (s : Shape) (p : Point3) : Option (Option Nat) :=
  match anyMapGet s.buildMap .point with
  | some (.points l) => some (scanFor l p)
  | _ => none

/-- `Geometry::handle_for` at `T = Curve`, with the unwrap made explicit. -/
def Shape.handle_for_curve (s : Shape) (c : Curve) : Option (Option Nat) :=
  match anyMapGet s.buildMap .curve with
  | some (.curves l) => some (scanFor l c)
  | _ => none

/-- `Geometry::handle_for` at `T = Surface`, with the unwrap made explicit. -/
def Shape.handle_for_surface (s : Shape) (sf : Surface) : Option (Option Nat) :=
  match anyMapGet s.buildMap .surface with
  | some (.surfaces l) => some (scanFor l sf)
  | _ => none

/-! ## Topology facet and validation -/

/-- The validation failure kinds surfaced by the Topology facet. -/
inductive TopoError where
  | structuralMissing
  | geometricDuplicate
  | topologicalDuplicate
  | notOnCarrier
  | notClosed
deriving DecidableEq, Repr

/-- Modelled from the spec: `Topology::add_vertex` (not under `src/`):
validates (a) that the vertex's point handle belongs to this shape's point
store and (b) that the referenced point is not within `ε` of any point
referenced by an existing vertex; on success appends the vertex and returns
its handle, on failure returns the error and the unmodified shape. -/
def Shape.add_vertex (s : Shape) (v : Vertex) : Except TopoError Nat × Shape :=
  match s.points[v.point]? with
  | none => (.error .structuralMissing, s)
  | some p =>
    if s.vertices.any (fun w =>
        match s.points[w.point]? with
        | some q => decide (distSq p q < s.minDistance ^ 2)
        | none => false) then
      (.error .geometricDuplicate, s)
    else
      (.ok s.vertices.length, { s with vertices := s.vertices ++ [v] })

/-- The outcome of `merge_into`: a validation error, or the `todo!()`
placeholder reached (a panic in the Rust source). -/
inductive MergeError where
  | validation (e : TopoError)
  | todoUnimplemented
deriving DecidableEq, Repr

/-- `<Vertex as TopoObject>::merge_into` from
`src/fj-kernel/src/shape/traits.rs`, acting on the vertex's resolved point
value `p` (`self.point()` reads the point through the foreign shape's
store): if `handle_for` finds no exactly equal point, the point is added
and the vertex inserted through `add_vertex`; otherwise the body is
`todo!()`.  State-passing: the second component is the shape after the
call, also on failure. -/
def Shape.merge_vertex (s : Shape) (p : Point3) : Except MergeError Nat × Shape :=
  match scanFor s.points p with
  | none =>
    match (s.add_point p).2.add_vertex ⟨(s.add_point p).1⟩ with
    | (.ok vh, s2) => (.ok vh, s2)
    | (.error e, s2) => (.error (.validation e), s2)
  | some _ => (.error .todoUnimplemented, s)

/-! ## Invariant I1 and the mutations of the shape -/

/-- Invariant I1: every handle stored inside a topological entity refers to
an entity already present in the same shape (an index inside the addressed
store's bounds). -/
def ShapeI1 (s : Shape) : Prop :=
  (∀ w ∈ s.vertices, w.point < s.points.length) ∧
  (∀ e ∈ s.edges, e.curve < s.curves.length ∧
    ∀ vh ∈ e.vertices, vh < s.vertices.length) ∧
  (∀ c ∈ s.cycles, ∀ eh ∈ c.edges, eh < s.edges.length) ∧
  (∀ f ∈ s.faces, ∀ sfh ch,
    f = Face.face sfh ch → sfh < s.surfaces.length ∧ ∀ h ∈ ch, h < s.cycles.length)

/-- The mutations a shape admits in the modelled core: the geometric adds,
`add_vertex`, the vertex merge, and the bulk transform. -/
inductive Mutation where
  | addPoint (p : Point3)
  | addCurve (c : Curve)
  | addSurface (sf : Surface)
  | addVertex (v : Vertex)
  | mergeVertex (p : Point3)
  | applyTransform (T : Transform)
deriving Repr

/-- The shape after one mutation (the result value is dropped; failing
calls leave the state their state-passing form returns). -/
def Shape.mutate (s : Shape) : Mutation → Shape
  | .addPoint p => (s.add_point p).2
  | .addCurve c => (s.add_curve c).2
  | .addSurface sf => (s.add_surface sf).2
  | .addVertex v => (s.add_vertex v).2
  | .mergeVertex p => (s.merge_vertex p).2
  | .applyTransform T => s.transform T

/-- The shape after a sequence of mutations, applied left to right. -/
def Shape.mutateAll (s : Shape) (ms : List Mutation) : Shape :=
  ms.foldl Shape.mutate s

/-! ## Sequences of `add_*` calls (for handle stability) -/

/-- One `add_*` call of the modelled core. -/
inductive AddOp where
  | point (p : Point3)
  | curve (c : Curve)
  | surface (sf : Surface)
  | vertex (v : Vertex)
deriving Repr

/-- The shape after one `add_*` call (a failing `add_vertex` leaves the
shape as it was). -/
def Shape.applyAdd (s : Shape) : AddOp → Shape
  | .point p => (s.add_point p).2
  | .curve c => (s.add_curve c).2
  | .surface sf => (s.add_surface sf).2
  | .vertex v => (s.add_vertex v).2

/-- The shape after a sequence of `add_*` calls, applied left to right. -/
def Shape.applyAdds (s : Shape) (ops : List AddOp) : Shape :=
  ops.foldl Shape.applyAdd s

/-- A small populated shape used to witness the invariant theorems:
`ε = 2`, one point at the origin, one vertex referring to it. -/
def sampleShape : Shape :=
  ⟨2, [⟨0, 0, 0⟩], [], [], [⟨0⟩], [], [], []⟩

/-- Inputs for the handle-stability witness: a shape with one payload in
each geometric store and one vertex, one appended point, and a translation
by `(10, 0, 0)`. -/
def c4Shape : Shape :=
  ⟨2, [⟨0, 0, 0⟩], [.line ⟨0, 0, 0⟩ ⟨1, 0, 0⟩],
    [.swept (.line ⟨0, 0, 0⟩ ⟨1, 0, 0⟩) ⟨0, 1, 0⟩], [⟨0⟩], [], [], []⟩

def c4Ops : List AddOp := [.point ⟨7, 7, 7⟩]

def c4T : Transform :=
  ⟨⟨1, 0, 0⟩, ⟨0, 1, 0⟩, ⟨0, 0, 1⟩, ⟨10, 0, 0⟩⟩

/-! ## Helper lemmas -/

theorem scanFor_eq_none_iff {α : Type} [DecidableEq α] (store : List α) (v : α) :
    scanFor store v = none ↔ ∀ i : Nat, store[i]? ≠ some v := by
  induction store with
  | nil => simp [scanFor]
  | cons x xs ih =>
    by_cases hx : x = v
    · simp only [scanFor, if_pos hx]
      constructor
      · intro h; cases h
      · intro h
        exact absurd (show (x :: xs)[0]? = some v by simp [hx]) (h 0)
    · simp only [scanFor, if_neg hx, Option.map_eq_none']
      rw [ih]
      constructor
      · intro h i
        cases i with
        | zero => simp [hx]
        | succ j => simpa using h j
      · intro h j
        have := h (j + 1)
        simpa using this

theorem scanFor_eq_some_iff {α : Type} [DecidableEq α] (store : List α) (v : α)
    (i : Nat) :
    scanFor store v = some i ↔
      store[i]? = some v ∧ ∀ j < i, store[j]? ≠ some v := by
  induction store generalizing i with
  | nil => simp [scanFor]
  | cons x xs ih =>
    by_cases hx : x = v
    · simp only [scanFor, if_pos hx]
      cases i with
      | zero => simp [hx]
      | succ k =>
        constructor
        · intro h
          simp at h
        · rintro ⟨-, hall⟩
          exact absurd (show (x :: xs)[0]? = some v by simp [hx])
            (hall 0 (Nat.succ_pos k))
    · simp only [scanFor, if_neg hx, Option.map_eq_some']
      cases i with
      | zero =>
        constructor
        · rintro ⟨k, -, hk⟩
          exact absurd hk (by omega)
        · rintro ⟨h0, -⟩
          simp only [List.getElem?_cons_zero, Option.some.injEq] at h0
          exact absurd h0 hx
      | succ k =>
        constructor
        · rintro ⟨m, hm, hmk⟩
          have hmk' : m = k := by omega
          rw [hmk'] at hm
          rcases (ih k).mp hm with ⟨hget, hall⟩
          refine ⟨by simpa using hget, ?_⟩
          intro j hj
          cases j with
          | zero => simp [hx]
          | succ j' =>
            simp only [List.getElem?_cons_succ]
            exact hall j' (by omega)
        · rintro ⟨hget, hall⟩
          refine ⟨k, (ih k).mpr ⟨by simpa using hget, ?_⟩, rfl⟩
          intro j hj
          have := hall (j + 1) (by omega)
          simpa using this

theorem getElem?_append_length {α : Type} (l : List α) (a : α) :
    (l ++ [a])[l.length]? = some a := by
  rw [List.getElem?_append, if_neg (by omega)]
  simp

theorem getElem?_append_lt {α : Type} (l l' : List α) (i : Nat)
    (h : i < l.length) : (l ++ l')[i]? = l[i]? := by
  rw [List.getElem?_append, if_pos h]

theorem handle_for_point_eq (s : Shape) (p : Point3) :
    s.handle_for_point p = some (scanFor s.points p) := rfl

theorem handle_for_curve_eq (s : Shape) (c : Curve) :
    s.handle_for_curve c = some (scanFor s.curves c) := rfl

theorem handle_for_surface_eq (s : Shape) (sf : Surface) :
    s.handle_for_surface sf = some (scanFor s.surfaces sf) := rfl

/-! ## Claims -/

/-- C1: for every geometric value (point, curve or surface) and every
shape, `handle_for` returns a handle exactly when some payload of the
corresponding store is exactly equal to the query, the returned handle is
that of the first such payload in the scan, and when no payload equals the
query (in particular on a shape the value was never inserted into) the
result is `none`. -/
theorem claim1_handle_for_first_match (s : Shape) (p : Point3) (c : Curve)
    (sf : Surface) :
    (∀ i : Nat, s.handle_for_point p = some (some i) ↔
      s.points[i]? = some p ∧ ∀ j < i, s.points[j]? ≠ some p) ∧
    (s.handle_for_point p = some none ↔ ∀ i : Nat, s.points[i]? ≠ some p) ∧
    (∀ i : Nat, s.handle_for_curve c = some (some i) ↔
      s.curves[i]? = some c ∧ ∀ j < i, s.curves[j]? ≠ some c) ∧
    (s.handle_for_curve c = some none ↔ ∀ i : Nat, s.curves[i]? ≠ some c) ∧
    (∀ i : Nat, s.handle_for_surface sf = some (some i) ↔
      s.surfaces[i]? = some sf ∧ ∀ j < i, s.surfaces[j]? ≠ some sf) ∧
    (s.handle_for_surface sf = some none ↔ ∀ i : Nat, s.surfaces[i]? ≠ some sf) := by
  refine ⟨fun i => ?_, ?_, fun i => ?_, ?_, fun i => ?_, ?_⟩ <;>
    simp only [handle_for_point_eq, handle_for_curve_eq, handle_for_surface_eq,
      Option.some.injEq]
  · exact scanFor_eq_some_iff s.points p i
  · exact scanFor_eq_none_iff s.points p
  · exact scanFor_eq_some_iff s.curves c i
  · exact scanFor_eq_none_iff s.curves c
  · exact scanFor_eq_some_iff s.surfaces sf i
  · exact scanFor_eq_none_iff s.surfaces sf

/-- C9: the type-keyed store lookup inside `handle_for` always finds the
store for each of the three sealed geometric kinds, so the unwrap is
unreachable and `handle_for` never fails, for every shape state. -/
theorem claim9_geometry_total (s : Shape) (p : Point3) (c : Curve)
    (sf : Surface) :
    anyMapGet s.buildMap .point = some (.points s.points) ∧
    anyMapGet s.buildMap .curve = some (.curves s.curves) ∧
    anyMapGet s.buildMap .surface = some (.surfaces s.surfaces) ∧
    (s.handle_for_point p).isSome = true ∧
    (s.handle_for_curve c).isSome = true ∧
    (s.handle_for_surface sf).isSome = true :=
  ⟨rfl, rfl, rfl, rfl, rfl, rfl⟩

/-- C8: `add_point`, `add_curve` and `add_surface` are infallible total
functions performing no uniqueness check: each call returns the handle of a
freshly appended slot, so adding the same value twice yields two distinct
handles and two duplicate payloads in the store. -/
theorem claim8_add_geometry_duplicates (s : Shape) (p : Point3) (c : Curve)
    (sf : Surface) :
    ((s.add_point p).1 = s.points.length ∧
     ((s.add_point p).2.add_point p).1 ≠ (s.add_point p).1 ∧
     ((s.add_point p).2.add_point p).2.points[(s.add_point p).1]? = some p ∧
     ((s.add_point p).2.add_point p).2.points[((s.add_point p).2.add_point p).1]?
       = some p ∧
     ((s.add_point p).2.add_point p).2.points.length = s.points.length + 2) ∧
    ((s.add_curve c).1 = s.curves.length ∧
     ((s.add_curve c).2.add_curve c).1 ≠ (s.add_curve c).1 ∧
     ((s.add_curve c).2.add_curve c).2.curves[(s.add_curve c).1]? = some c ∧
     ((s.add_curve c).2.add_curve c).2.curves[((s.add_curve c).2.add_curve c).1]?
       = some c ∧
     ((s.add_curve c).2.add_curve c).2.curves.length = s.curves.length + 2) ∧
    ((s.add_surface sf).1 = s.surfaces.length ∧
     ((s.add_surface sf).2.add_surface sf).1 ≠ (s.add_surface sf).1 ∧
     ((s.add_surface sf).2.add_surface sf).2.surfaces[(s.add_surface sf).1]?
       = some sf ∧
     ((s.add_surface sf).2.add_surface sf).2.surfaces[((s.add_surface sf).2.add_surface sf).1]?
       = some sf ∧
     ((s.add_surface sf).2.add_surface sf).2.surfaces.length
       = s.surfaces.length + 2) := by
  refine ⟨⟨rfl, by simp [Shape.add_point], ?_, ?_, by simp [Shape.add_point]⟩,
    ⟨rfl, by simp [Shape.add_curve], ?_, ?_, by simp [Shape.add_curve]⟩,
    ⟨rfl, by simp [Shape.add_surface], ?_, ?_, by simp [Shape.add_surface]⟩⟩
  · show ((s.points ++ [p]) ++ [p])[s.points.length]? = some p
    rw [getElem?_append_lt _ _ _ (by simp), getElem?_append_length]
  · show ((s.points ++ [p]) ++ [p])[(s.points ++ [p]).length]? = some p
    exact getElem?_append_length _ _
  · show ((s.curves ++ [c]) ++ [c])[s.curves.length]? = some c
    rw [getElem?_append_lt _ _ _ (by simp), getElem?_append_length]
  · show ((s.curves ++ [c]) ++ [c])[(s.curves ++ [c]).length]? = some c
    exact getElem?_append_length _ _
  · show ((s.surfaces ++ [sf]) ++ [sf])[s.surfaces.length]? = some sf
    rw [getElem?_append_lt _ _ _ (by simp), getElem?_append_length]
  · show ((s.surfaces ++ [sf]) ++ [sf])[(s.surfaces ++ [sf]).length]? = some sf
    exact getElem?_append_length _ _

/-- C3: `transform` maps every point payload through the transform, asks
every curve and surface payload to apply the transform to itself (yielding
a value of the same variant), maps each triangle of every triangles-variant
face through the transform, and skips no payload (every index of every
geometric store is rewritten by the corresponding map). -/
theorem claim3_transform_payloads (s : Shape) (T : Transform) :
    (∀ i : Nat, (s.transform T).points[i]? = (s.points[i]?).map T.transformPoint) ∧
    (∀ i : Nat, (s.transform T).curves[i]? =
      (s.curves[i]?).map (Curve.transform T)) ∧
    (∀ i : Nat, (s.transform T).surfaces[i]? =
      (s.surfaces[i]?).map (Surface.transform T)) ∧
    (∀ i : Nat, (s.transform T).faces[i]? =
      (s.faces[i]?).map (Face.transformIfTriangles T)) ∧
    (∀ c : Curve, (Curve.transform T c).isLine = c.isLine) ∧
    (∀ ts : List Triangle, Face.transformIfTriangles T (.triangles ts) =
      .triangles (ts.map T.transformTriangle)) ∧
    (∀ tr : Triangle, T.transformTriangle tr =
      ⟨T.transformPoint tr.a, T.transformPoint tr.b, T.transformPoint tr.c⟩) := by
  refine ⟨fun i => ?_, fun i => ?_, fun i => ?_, fun i => ?_, fun c => ?_,
    fun ts => rfl, fun tr => rfl⟩
  · exact List.getElem?_map T.transformPoint s.points i
  · exact List.getElem?_map (Curve.transform T) s.curves i
  · exact List.getElem?_map (Surface.transform T) s.surfaces i
  · exact List.getElem?_map (Face.transformIfTriangles T) s.faces i
  · cases c <;> rfl

/-- C10: `transform` modifies only geometric payloads and triangles-variant
face payloads: the vertex, edge and cycle stores are untouched, no store
gains or loses a slot, and a face that is not in the triangles variant is
left unchanged. -/
theorem claim10_transform_frame (s : Shape) (T : Transform) :
    (s.transform T).vertices = s.vertices ∧
    (s.transform T).edges = s.edges ∧
    (s.transform T).cycles = s.cycles ∧
    (s.transform T).minDistance = s.minDistance ∧
    (s.transform T).points.length = s.points.length ∧
    (s.transform T).curves.length = s.curves.length ∧
    (s.transform T).surfaces.length = s.surfaces.length ∧
    (s.transform T).faces.length = s.faces.length ∧
    (∀ i : Nat, (s.transform T).faces[i]? =
      (s.faces[i]?).map (Face.transformIfTriangles T)) ∧
    (∀ sfh : Nat, ∀ ch : List Nat,
      Face.transformIfTriangles T (.face sfh ch) = .face sfh ch) := by
  refine ⟨rfl, rfl, rfl, rfl, ?_, ?_, ?_, ?_, fun i => ?_, fun sfh ch => rfl⟩
  · exact List.length_map s.points T.transformPoint
  · exact List.length_map s.curves (Curve.transform T)
  · exact List.length_map s.surfaces (Surface.transform T)
  · exact List.length_map s.faces (Face.transformIfTriangles T)
  · exact List.getElem?_map (Face.transformIfTriangles T) s.faces i

/-- The shape returned by `add_vertex` differs from the input at most by
one appended vertex; every other store and the tolerance are untouched. -/
theorem add_vertex_state (s : Shape) (v : Vertex) :
    (s.add_vertex v).2.points = s.points ∧
    (s.add_vertex v).2.curves = s.curves ∧
    (s.add_vertex v).2.surfaces = s.surfaces ∧
    (s.add_vertex v).2.edges = s.edges ∧
    (s.add_vertex v).2.cycles = s.cycles ∧
    (s.add_vertex v).2.faces = s.faces ∧
    (s.add_vertex v).2.minDistance = s.minDistance ∧
    s.vertices.length ≤ (s.add_vertex v).2.vertices.length := by
  unfold Shape.add_vertex
  split
  · exact ⟨rfl, rfl, rfl, rfl, rfl, rfl, rfl, Nat.le_refl _⟩
  · split
    · exact ⟨rfl, rfl, rfl, rfl, rfl, rfl, rfl, Nat.le_refl _⟩
    · exact ⟨rfl, rfl, rfl, rfl, rfl, rfl, rfl, by simp⟩

/-- `add_*` calls only grow the stores: slot counts never decrease. -/
theorem applyAdd_stores_grow (s : Shape) (op : AddOp) :
    s.points.length ≤ (s.applyAdd op).points.length ∧
    s.curves.length ≤ (s.applyAdd op).curves.length ∧
    s.surfaces.length ≤ (s.applyAdd op).surfaces.length ∧
    s.vertices.length ≤ (s.applyAdd op).vertices.length := by
  cases op with
  | point p => simp [Shape.applyAdd, Shape.add_point]
  | curve c => simp [Shape.applyAdd, Shape.add_curve]
  | surface sf => simp [Shape.applyAdd, Shape.add_surface]
  | vertex v =>
    obtain ⟨h1, h2, h3, -, -, -, -, h8⟩ := add_vertex_state s v
    exact ⟨by rw [Shape.applyAdd, h1], by rw [Shape.applyAdd, h2],
      by rw [Shape.applyAdd, h3], h8⟩

/-- Store growth extends to sequences of `add_*` calls. -/
theorem applyAdds_stores_grow (s : Shape) (ops : List AddOp) :
    s.points.length ≤ (s.applyAdds ops).points.length ∧
    s.curves.length ≤ (s.applyAdds ops).curves.length ∧
    s.surfaces.length ≤ (s.applyAdds ops).surfaces.length ∧
    s.vertices.length ≤ (s.applyAdds ops).vertices.length := by
  induction ops generalizing s with
  | nil => exact ⟨Nat.le_refl _, Nat.le_refl _, Nat.le_refl _, Nat.le_refl _⟩
  | cons op ops ih =>
    obtain ⟨g1, g2, g3, g4⟩ := applyAdd_stores_grow s op
    obtain ⟨i1, i2, i3, i4⟩ := ih (s.applyAdd op)
    exact ⟨Nat.le_trans g1 i1, Nat.le_trans g2 i2, Nat.le_trans g3 i3,
      Nat.le_trans g4 i4⟩

/-- C4: handle stability.  After any sequence of `add_*` calls followed by
one `transform`, every handle issued before the sequence still resolves
(the index is still within its store), and reading a geometric handle after
the transform yields the transformed payload of the value the handle
resolved to just before the transform. -/
theorem claim4_handle_stability (s : Shape) (ops : List AddOp) (T : Transform)
    (h : Nat) :
    (h < s.points.length →
      h < ((s.applyAdds ops).transform T).points.length ∧
      ((s.applyAdds ops).transform T).points[h]? =
        ((s.applyAdds ops).points[h]?).map T.transformPoint) ∧
    (h < s.curves.length →
      h < ((s.applyAdds ops).transform T).curves.length ∧
      ((s.applyAdds ops).transform T).curves[h]? =
        ((s.applyAdds ops).curves[h]?).map (Curve.transform T)) ∧
    (h < s.surfaces.length →
      h < ((s.applyAdds ops).transform T).surfaces.length ∧
      ((s.applyAdds ops).transform T).surfaces[h]? =
        ((s.applyAdds ops).surfaces[h]?).map (Surface.transform T)) ∧
    (h < s.vertices.length →
      h < ((s.applyAdds ops).transform T).vertices.length ∧
      ((s.applyAdds ops).transform T).vertices[h]? =
        (s.applyAdds ops).vertices[h]?) := by
  obtain ⟨g1, g2, g3, g4⟩ := applyAdds_stores_grow s ops
  refine ⟨fun hp => ⟨?_, ?_⟩, fun hp => ⟨?_, ?_⟩, fun hp => ⟨?_, ?_⟩,
    fun hp => ⟨?_, ?_⟩⟩
  · show h < ((s.applyAdds ops).points.map T.transformPoint).length
    rw [List.length_map]
    omega
  · exact List.getElem?_map T.transformPoint (s.applyAdds ops).points h
  · show h < ((s.applyAdds ops).curves.map (Curve.transform T)).length
    rw [List.length_map]
    omega
  · exact List.getElem?_map (Curve.transform T) (s.applyAdds ops).curves h
  · show h < ((s.applyAdds ops).surfaces.map (Surface.transform T)).length
    rw [List.length_map]
    omega
  · exact List.getElem?_map (Surface.transform T) (s.applyAdds ops).surfaces h
  · show h < (s.applyAdds ops).vertices.length
    omega
  · rfl

/-- The near-duplicate check `add_vertex` runs against one existing vertex,
as a proposition: the vertex resolves to a point strictly within `ε`. -/
theorem vertex_near_check_iff (s : Shape) (p : Point3) (w : Vertex) :
    ((match s.points[w.point]? with
      | some q => decide (distSq p q < s.minDistance ^ 2)
      | none => false) = true) ↔
      ∃ q : Point3, s.points[w.point]? = some q ∧
        distSq p q < s.minDistance ^ 2 := by
  cases h : s.points[w.point]? with
  | none => simp
  | some q => simp [h]

/-- C6: for every `add_vertex` call whose vertex resolves to a point `p`,
the call succeeds (returning the fresh handle) exactly when every existing
vertex of the shape resolves to a point at squared distance at least `ε²`
from `p`; it returns the `GeometricDuplicate` error exactly when some
existing vertex resolves to a point strictly within `ε` of `p`; and no
other error is possible. -/
theorem claim6_add_vertex_tolerance (s : Shape) (v : Vertex) (p : Point3)
    (hp : s.points[v.point]? = some p) :
    ((s.add_vertex v).1 = .ok s.vertices.length ↔
      ∀ w ∈ s.vertices, ∀ q : Point3, s.points[w.point]? = some q →
        s.minDistance ^ 2 ≤ distSq p q) ∧
    ((s.add_vertex v).1 = .error .geometricDuplicate ↔
      ∃ w ∈ s.vertices, ∃ q : Point3, s.points[w.point]? = some q ∧
        distSq p q < s.minDistance ^ 2) ∧
    (∀ e : TopoError, (s.add_vertex v).1 = .error e →
      e = .geometricDuplicate) := by
  have hany : (s.vertices.any (fun w =>
      match s.points[w.point]? with
      | some q => decide (distSq p q < s.minDistance ^ 2)
      | none => false) = true) ↔
      ∃ w ∈ s.vertices, ∃ q : Point3, s.points[w.point]? = some q ∧
        distSq p q < s.minDistance ^ 2 := by
    rw [List.any_eq_true]
    constructor
    · rintro ⟨w, hw, hc⟩
      exact ⟨w, hw, (vertex_near_check_iff s p w).mp hc⟩
    · rintro ⟨w, hw, hq⟩
      exact ⟨w, hw, (vertex_near_check_iff s p w).mpr hq⟩
  by_cases hA : s.vertices.any (fun w =>
      match s.points[w.point]? with
      | some q => decide (distSq p q < s.minDistance ^ 2)
      | none => false) = true
  · have hres : (s.add_vertex v).1 = .error .geometricDuplicate := by
      simp only [Shape.add_vertex, hp, hA, if_true]
    refine ⟨?_, ?_, ?_⟩
    · rw [hres]
      constructor
      · intro h; cases h
      · intro hall
        exfalso
        obtain ⟨w, hw, q, hq, hlt⟩ := hany.mp hA
        exact absurd hlt (not_lt.mpr (hall w hw q hq))
    · rw [hres]
      exact ⟨fun _ => hany.mp hA, fun _ => rfl⟩
    · intro e he
      rw [hres] at he
      cases he
      rfl
  · have hres : (s.add_vertex v).1 = .ok s.vertices.length := by
      rw [Bool.not_eq_true] at hA
      simp only [Shape.add_vertex, hp, hA, Bool.false_eq_true, if_false]
    refine ⟨?_, ?_, ?_⟩
    · rw [hres]
      refine ⟨fun _ w hw q hq => ?_, fun _ => rfl⟩
      by_contra hcon
      exact hA (hany.mpr ⟨w, hw, q, hq, lt_of_not_ge hcon⟩)
    · rw [hres]
      constructor
      · intro h; cases h
      · intro hex; exact absurd (hany.mpr hex) hA
    · intro e he
      rw [hres] at he
      cases he

/-- C6 witness: on a shape with `ε = 2` holding one point at the origin and
one vertex for it, adding a second vertex for the same point resolves the
hypothesis and the characterization reports a `GeometricDuplicate`. -/
theorem claim6_add_vertex_tolerance_witness :
    (Shape.mk 2 [⟨0, 0, 0⟩] [] [] [⟨0⟩] [] [] []).points[(0 : Nat)]? =
      some ⟨0, 0, 0⟩ ∧
    ((Shape.mk 2 [⟨0, 0, 0⟩] [] [] [⟨0⟩] [] [] []).add_vertex ⟨0⟩).1 =
      .error .geometricDuplicate :=
  ⟨rfl,
    ((claim6_add_vertex_tolerance (Shape.mk 2 [⟨0, 0, 0⟩] [] [] [⟨0⟩] [] [] [])
      ⟨0⟩ ⟨0, 0, 0⟩ rfl).2.1).mpr
      ⟨⟨0⟩, by simp, ⟨0, 0, 0⟩, rfl, by decide⟩⟩

/-! ## Preservation of referential integrity (I1) -/

theorem lt_length_of_getElem?_eq_some {α : Type} {l : List α} {i : Nat}
    {a : α} (h : l[i]? = some a) : i < l.length := by
  by_contra hc
  rw [List.getElem?_eq_none (by omega)] at h
  cases h

theorem I1_add_point (s : Shape) (p : Point3) (h : ShapeI1 s) :
    ShapeI1 (s.add_point p).2 := by
  obtain ⟨h1, h2, h3, h4⟩ := h
  refine ⟨fun w hw => ?_, h2, h3, h4⟩
  show w.point < (s.points ++ [p]).length
  have := h1 w hw
  simp only [List.length_append, List.length_cons, List.length_nil]
  omega

theorem I1_add_curve (s : Shape) (c : Curve) (h : ShapeI1 s) :
    ShapeI1 (s.add_curve c).2 := by
  obtain ⟨h1, h2, h3, h4⟩ := h
  refine ⟨h1, fun e he => ⟨?_, (h2 e he).2⟩, h3, h4⟩
  show e.curve < (s.curves ++ [c]).length
  have := (h2 e he).1
  simp only [List.length_append, List.length_cons, List.length_nil]
  omega

theorem I1_add_surface (s : Shape) (sf : Surface) (h : ShapeI1 s) :
    ShapeI1 (s.add_surface sf).2 := by
  obtain ⟨h1, h2, h3, h4⟩ := h
  refine ⟨h1, h2, h3, fun f hf sfh ch hfe => ?_⟩
  obtain ⟨hs, hcy⟩ := h4 f hf sfh ch hfe
  refine ⟨?_, hcy⟩
  show sfh < (s.surfaces ++ [sf]).length
  simp only [List.length_append, List.length_cons, List.length_nil]
  omega

theorem I1_add_vertex (s : Shape) (v : Vertex) (h : ShapeI1 s) :
    ShapeI1 (s.add_vertex v).2 := by
  obtain ⟨h1, h2, h3, h4⟩ := h
  unfold Shape.add_vertex
  split
  · exact ⟨h1, h2, h3, h4⟩
  · next p hp =>
    split
    · exact ⟨h1, h2, h3, h4⟩
    · refine ⟨fun w hw => ?_, fun e he => ?_, h3, h4⟩
      · have hw' : w ∈ s.vertices ++ [v] := hw
        rcases List.mem_append.mp hw' with hmem | hmem
        · exact h1 w hmem
        · have hv : w = v := by simpa using hmem
          subst hv
          exact lt_length_of_getElem?_eq_some hp
      · obtain ⟨hc, hvb⟩ := h2 e he
        refine ⟨hc, fun vh hvh => ?_⟩
        show vh < (s.vertices ++ [v]).length
        have := hvb vh hvh
        simp only [List.length_append, List.length_cons, List.length_nil]
        omega

theorem I1_transform (s : Shape) (T : Transform) (h : ShapeI1 s) :
    ShapeI1 (s.transform T) := by
  obtain ⟨h1, h2, h3, h4⟩ := h
  refine ⟨fun w hw => ?_, fun e he => ?_, h3, fun f hf sfh ch hfe => ?_⟩
  · show w.point < (s.points.map T.transformPoint).length
    simp only [List.length_map]
    exact h1 w hw
  · obtain ⟨hc, hvb⟩ := h2 e he
    refine ⟨?_, hvb⟩
    show e.curve < (s.curves.map (Curve.transform T)).length
    simp only [List.length_map]
    exact hc
  · have hf' : f ∈ s.faces.map (Face.transformIfTriangles T) := hf
    rcases List.mem_map.mp hf' with ⟨g, hg, hgf⟩
    have hge : g = Face.face sfh ch := by
      cases g with
      | face a b =>
        have heq : Face.face a b = Face.face sfh ch := by
          rw [← hfe, ← hgf]
          rfl
        injection heq with ha hb
        rw [ha, hb]
      | triangles ts =>
        exfalso
        have heq : Face.triangles (ts.map T.transformTriangle) =
            Face.face sfh ch := by
          rw [← hfe, ← hgf]
          rfl
        cases heq
    obtain ⟨hs, hcy⟩ := h4 g hg sfh ch hge
    refine ⟨?_, hcy⟩
    show sfh < (s.surfaces.map (Surface.transform T)).length
    simp only [List.length_map]
    exact hs

theorem I1_merge_vertex (s : Shape) (p : Point3) (h : ShapeI1 s) :
    ShapeI1 (s.merge_vertex p).2 := by
  have hv : ShapeI1 ((s.add_point p).2.add_vertex ⟨(s.add_point p).1⟩).2 :=
    I1_add_vertex _ _ (I1_add_point s p h)
  unfold Shape.merge_vertex
  split
  · split
    · next vh s2 heq =>
      rw [heq] at hv
      exact hv
    · next e s2 heq =>
      rw [heq] at hv
      exact hv
  · exact h

theorem sampleShape_I1 : ShapeI1 sampleShape := by
  refine ⟨?_, ?_, ?_, ?_⟩
  · intro w hw
    simp only [sampleShape, List.mem_singleton] at hw
    subst hw
    decide
  · intro e he
    simp [sampleShape] at he
  · intro c hc
    simp [sampleShape] at hc
  · intro f hf
    simp [sampleShape] at hf

/-- C7: every vertex stored in a shape carries exactly one point handle
(the single `point` field of `Vertex`), and invariant I1 — every handle
stored inside a topological entity refers to an entity already present in
the same shape — is preserved by every mutation of the modelled core. -/
theorem claim7_referential_integrity (s : Shape) (m : Mutation)
    (h : ShapeI1 s) : ShapeI1 (s.mutate m) := by
  cases m with
  | addPoint p => exact I1_add_point s p h
  | addCurve c => exact I1_add_curve s c h
  | addSurface sf => exact I1_add_surface s sf h
  | addVertex v => exact I1_add_vertex s v h
  | mergeVertex p => exact I1_merge_vertex s p h
  | applyTransform T => exact I1_transform s T h

/-- C7 witness: the sample shape satisfies I1, and still does after a
vertex merge. -/
theorem claim7_referential_integrity_witness :
    ShapeI1 sampleShape ∧
    ShapeI1 (sampleShape.mutate (.mergeVertex ⟨5, 0, 0⟩)) :=
  ⟨sampleShape_I1,
    claim7_referential_integrity sampleShape (.mergeVertex ⟨5, 0, 0⟩)
      sampleShape_I1⟩

/-! ## Evaluations of the merge path at concrete inputs -/

/-- C2 (evaluation at the failing input): merging the same vertex twice
into an initially empty shape (`ε = 2`) succeeds the first time with handle
0, but the second merge finds the point already present and reaches the
`todo!()` placeholder instead of returning the existing vertex handle. -/
theorem claim2_merge_twice_todo :
    ((Shape.mk 2 [] [] [] [] [] [] []).merge_vertex ⟨0, 0, 0⟩).1 = .ok 0 ∧
    (((Shape.mk 2 [] [] [] [] [] [] []).merge_vertex ⟨0, 0, 0⟩).2.merge_vertex
        ⟨0, 0, 0⟩).1 = .error .todoUnimplemented ∧
    (((Shape.mk 2 [] [] [] [] [] [] []).merge_vertex ⟨0, 0, 0⟩).2.merge_vertex
        ⟨0, 0, 0⟩).2 =
      ((Shape.mk 2 [] [] [] [] [] [] []).merge_vertex ⟨0, 0, 0⟩).2 := by
  refine ⟨rfl, rfl, rfl⟩

/-- C5 (evaluation at the failing input): on the sample shape (`ε = 2`, one
point at the origin, one vertex), merging a vertex whose point is `(1,0,0)`
returns a `GeometricDuplicate` validation error, yet the shape is modified:
the point was inserted before validation failed, so the failing merge is
not atomic. -/
theorem claim5_merge_not_atomic :
    (sampleShape.merge_vertex ⟨1, 0, 0⟩).1 =
      .error (.validation .geometricDuplicate) ∧
    (sampleShape.merge_vertex ⟨1, 0, 0⟩).2.points =
      [⟨0, 0, 0⟩, ⟨1, 0, 0⟩] ∧
    (sampleShape.merge_vertex ⟨1, 0, 0⟩).2 ≠ sampleShape := by
  refine ⟨rfl, rfl, ?_⟩
  intro h
  have : (sampleShape.merge_vertex ⟨1, 0, 0⟩).2.points = sampleShape.points :=
    congrArg Shape.points h
  rw [show (sampleShape.merge_vertex ⟨1, 0, 0⟩).2.points =
    [⟨0, 0, 0⟩, ⟨1, 0, 0⟩] from rfl] at this
  cases this

/-- C4 witness: handle 0 of each store of `c4Shape` still resolves after
the `add_*` sequence and the transform, and the geometric reads yield the
transformed payloads. -/
theorem claim4_handle_stability_witness :
    (0 : Nat) < c4Shape.points.length ∧
    (0 : Nat) < c4Shape.curves.length ∧
    (0 : Nat) < c4Shape.surfaces.length ∧
    (0 : Nat) < c4Shape.vertices.length ∧
    ((c4Shape.applyAdds c4Ops).transform c4T).points[(0 : Nat)]? =
      ((c4Shape.applyAdds c4Ops).points[(0 : Nat)]?).map c4T.transformPoint ∧
    ((c4Shape.applyAdds c4Ops).transform c4T).curves[(0 : Nat)]? =
      ((c4Shape.applyAdds c4Ops).curves[(0 : Nat)]?).map (Curve.transform c4T) ∧
    ((c4Shape.applyAdds c4Ops).transform c4T).surfaces[(0 : Nat)]? =
      ((c4Shape.applyAdds c4Ops).surfaces[(0 : Nat)]?).map
        (Surface.transform c4T) ∧
    ((c4Shape.applyAdds c4Ops).transform c4T).vertices[(0 : Nat)]? =
      (c4Shape.applyAdds c4Ops).vertices[(0 : Nat)]? :=
  ⟨by decide, by decide, by decide, by decide,
    ((claim4_handle_stability c4Shape c4Ops c4T 0).1 (by decide)).2,
    ((claim4_handle_stability c4Shape c4Ops c4T 0).2.1 (by decide)).2,
    ((claim4_handle_stability c4Shape c4Ops c4T 0).2.2.1 (by decide)).2,
    ((claim4_handle_stability c4Shape c4Ops c4T 0).2.2.2 (by decide)).2⟩

/-! ## Witnesses at concrete inputs for the remaining claims -/

/-- C1 witness: on the sample shape, `handle_for` of the stored origin
point returns handle 0, by the first-match characterization. -/
theorem claim1_handle_for_first_match_witness :
    sampleShape.handle_for_point ⟨0, 0, 0⟩ = some (some 0) :=
  ((claim1_handle_for_first_match sampleShape ⟨0, 0, 0⟩
      (.line ⟨0, 0, 0⟩ ⟨1, 0, 0⟩)
      (.swept (.line ⟨0, 0, 0⟩ ⟨1, 0, 0⟩) ⟨0, 1, 0⟩)).1 0).mpr
    ⟨rfl, fun j hj => absurd hj (Nat.not_lt_zero j)⟩

/-- C3 witness: the transformed sample shape reads the translated origin at
point handle 0. -/
theorem claim3_transform_payloads_witness :
    (sampleShape.transform c4T).points[(0 : Nat)]? =
      (sampleShape.points[(0 : Nat)]?).map c4T.transformPoint :=
  (claim3_transform_payloads sampleShape c4T).1 0

/-- C8 witness: adding the same point to the sample shape twice grows the
point store by two slots. -/
theorem claim8_add_geometry_duplicates_witness :
    ((sampleShape.add_point ⟨1, 2, 3⟩).2.add_point ⟨1, 2, 3⟩).2.points.length =
      sampleShape.points.length + 2 :=
  (claim8_add_geometry_duplicates sampleShape ⟨1, 2, 3⟩
    (.line ⟨0, 0, 0⟩ ⟨1, 0, 0⟩)
    (.swept (.line ⟨0, 0, 0⟩ ⟨1, 0, 0⟩) ⟨0, 1, 0⟩)).1.2.2.2.2

/-- C9 witness: `handle_for` on the sample shape returns without hitting
the unwrap. -/
theorem claim9_geometry_total_witness :
    (sampleShape.handle_for_point ⟨0, 0, 0⟩).isSome = true :=
  (claim9_geometry_total sampleShape ⟨0, 0, 0⟩
    (.line ⟨0, 0, 0⟩ ⟨1, 0, 0⟩)
    (.swept (.line ⟨0, 0, 0⟩ ⟨1, 0, 0⟩) ⟨0, 1, 0⟩)).2.2.2.1

/-- C10 witness: transforming the sample shape leaves its vertex store
untouched. -/
theorem claim10_transform_frame_witness :
    (sampleShape.transform c4T).vertices = sampleShape.vertices :=
  (claim10_transform_frame sampleShape c4T).1

end Fornjot
